import Mathlib

/-!
Verification of the per-connection protocol engine of the rfbgo VNC (RFB)
server, as a shallow embedding of src/rfb.go (the current revision of the
file: 1280x720 desktop, copy-rect incremental acknowledgment, fast path for
the Screens "thousands of colours" pixel format).

Machine integers are modelled as Nat with explicit reductions modulo 2^w
where Go truncates; byte output is modelled as List Nat (each entry one
byte); code paths that panic in Go return Except.error carrying the panic
message.  A panic in Go unwinds before the buffered writer is flushed, so
an Except.error result corresponds to no bytes of the modelled message
reaching the client.
-/

set_option maxRecDepth 10000

namespace RFB

/-! ### Wire primitives (binary.Write with big/little endian byte order) -/

/-- Bytes of a uint16 written big-endian. -/
def be16 (v : Nat) : List Nat := [v % 65536 / 256, v % 256]

/-- Bytes of a uint16 written little-endian. -/
def le16 (v : Nat) : List Nat := [v % 256, v % 65536 / 256]

/-- Bytes of a uint32 (or nonnegative int32) written big-endian. -/
def be32 (v : Nat) : List Nat :=
  [v % 4294967296 / 16777216, v % 16777216 / 65536, v % 65536 / 256, v % 256]

/-- Bytes of a uint32 written little-endian. -/
def le32 (v : Nat) : List Nat :=
  [v % 256, v % 65536 / 256, v % 16777216 / 65536, v % 4294967296 / 16777216]

/-- Byte values of an ASCII string (Go writes strings as raw bytes). -/
def strBytes (s : String) : List Nat := s.data.map Char.toNat

/-! ### Constants from src/rfb.go -/

def v3 : String := "RFB 003.003\n"
def v7 : String := "RFB 003.007\n"
def v8 : String := "RFB 003.008\n"

def authNone : Nat := 1
def statusOK : Nat := 0
def encodingRaw : Nat := 0
def encodingCopyRect : Nat := 1
def cmdFramebufferUpdate : Nat := 0

def deskWidth : Nat := 1280
def deskHeight : Nat := 720

/-! ### PixelFormat -/

/-- The 9-field RFB pixel format structure (field types as in the Go
struct: BPP, Depth, BigEndian, TrueColour and the shifts are uint8, the
channel maxima are uint16). -/
structure PixelFormat where
  BPP : Nat
  Depth : Nat
  BigEndian : Nat
  TrueColour : Nat
  RedMax : Nat
  GreenMax : Nat
  BlueMax : Nat
  RedShift : Nat
  GreenShift : Nat
  BlueShift : Nat
deriving DecidableEq

/-- The default format the server installs during the handshake and
advertises in ServerInit. -/
def defaultFormat : PixelFormat :=
  { BPP := 24, Depth := 24, BigEndian := 1, TrueColour := 1,
    RedMax := 255, GreenMax := 255, BlueMax := 255,
    RedShift := 16, GreenShift := 8, BlueShift := 0 }

/-- Trigger condition of the fast path: the format requested by the OS X
Screens app in its Thousands mode. -/
def PixelFormat.isScreensThousands (f : PixelFormat) : Bool :=
  f.BPP == 16 && f.Depth == 16 && f.TrueColour != 0 &&
  f.RedMax == 31 && f.GreenMax == 31 && f.BlueMax == 31 &&
  f.RedShift == 10 && f.GreenShift == 5 && f.BlueShift == 0

/-! ### Pixel encoding -/

/-- inRange reduces a rounded 16-bit channel value into the bit width the
channel maximum describes; only the 5-bit case (max 31) is implemented,
every other maximum panics. -/
def inRange (v : Nat) (max : Nat) : Except String Nat :=
  if max = 31 then .ok (v >>> (16 - 5))
  else .error ("todo; max value = " ++ toString max)

/-- Bytes of one packed pixel value of width f.BPP, honoring the declared
endianness of the format (binary.Write with BigEndian or LittleEndian). -/
def packedBytes (f : PixelFormat) (u32 : Nat) : Except String (List Nat) :=
  match f.BPP with
  | 32 => .ok (if f.BigEndian ≠ 0 then be32 u32 else le32 u32)
  | 16 => .ok (if f.BigEndian ≠ 0 then be16 (u32 % 65536) else le16 (u32 % 65536))
  | 8 => .ok [u32 % 256]
  | n => .error ("TODO: BPP of " ++ toString n)

/-- One iteration of the pixel loop of pushGenericLocked: reduce the three
rounded 16-bit channel values with inRange, shift each into position
(uint32 shifts, hence the reductions mod 2^32), or them together, and
write the value at the width of the format. -/
def encodePixel (f : PixelFormat) (r16 g16 b16 : Nat) : Except String (List Nat) := do
  let r ← inRange r16 f.RedMax
  let g ← inRange g16 f.GreenMax
  let b ← inRange b16 f.BlueMax
  let u32 := ((r <<< f.RedShift) % 4294967296) |||
             ((g <<< f.GreenShift) % 4294967296) |||
             ((b <<< f.BlueShift) % 4294967296)
  packedBytes f u32

/-- Sequential encoding of a list of pixel coordinates, failing at the
first pixel the format cannot encode (the Go loop panics there and the
buffered bytes are never flushed). -/
def encodeCoords (f : PixelFormat) (chanAt : Nat → Nat → Nat × Nat × Nat) :
    List (Nat × Nat) → Except String (List Nat)
  | [] => .ok []
  | (x, y) :: rest => do
    let px ← encodePixel f (chanAt x y).1 (chanAt x y).2.1 (chanAt x y).2.2
    let tail ← encodeCoords f chanAt rest
    .ok (px ++ tail)

/-- Row-major traversal order of the double loop (y outer from 0 to
height-1, x inner from 0 to width-1). -/
def coords (width height : Nat) : List (Nat × Nat) :=
  (List.range height).flatMap (fun y => (List.range width).map (fun x => (x, y)))

/-- pushGenericLocked: the slow path that works on any image and any
client-requested pixel format. -/
def pushGenericLocked (f : PixelFormat) (chanAt : Nat → Nat → Nat × Nat × Nat)
    (width height : Nat) : Except String (List Nat) :=
  encodeCoords f chanAt (coords width height)

/-- pushRGBAScreensThousandsLocked: the fast path over the raw Pix byte
array of an RGBA image.  Each group of four bytes r,g,b,a yields one
16-bit pixel: the top five bits of each 8-bit channel packed at shifts
10/5/0, emitted in the byte order the format declares.  A trailing group
of fewer than four bytes emits nothing (the Go loop only writes on the
alpha byte, and the output is truncated to pixels*2 bytes).  fastChunk is
the body of one loop round over a complete r,g,b,a group: the 3 masked
bits shifted by 7 give the red shift of 10, the shift by 2 gives the
green shift of 5, and the two bytes of the accumulated uint16 go out in
the order the format endianness picks. -/
def fastChunk (isBigEndian : Bool) (r g b : Nat) : List Nat :=
  let u16 := (((r &&& 248) <<< 7) ||| ((g &&& 248) <<< 2)) ||| (b >>> 3)
  let hb := (u16 >>> 8) % 256
  let lb := u16 % 256
  if isBigEndian then [hb, lb] else [lb, hb]

def fastPathPixels (isBigEndian : Bool) : List Nat → List Nat
  | r :: g :: b :: _a :: rest =>
    fastChunk isBigEndian r g b ++ fastPathPixels isBigEndian rest
  | _ => []

/-! ### Images -/

/-- The channel triple image.At(x,y).RGBA() yields on an image.RGBA: each
8-bit stored channel v is rounded to 16 bits as v | v<<8 = v * 257.  The
Pix layout is row-major with a stride of 4*width and four bytes r,g,b,a
per pixel. -/
def rgbaAt (pix : List Nat) (width : Nat) (x y : Nat) : Nat × Nat × Nat :=
  let i := 4 * (y * width + x)
  (pix.getD i 0 * 257, pix.getD (i + 1) 0 * 257, pix.getD (i + 2) 0 * 257)

/-- A frame: either a direct RGBA buffer (the concrete type the fast path
recognizes) or any other image, abstracted by its rounded-to-16-bit
channel function.  minX and minY are the Min corner of the bounds; width
and height are Dx and Dy of the bounds. -/
inductive RFBImage where
  | rgba (minX minY : Int) (width height : Nat) (pix : List Nat)
  | generic (minX minY : Int) (width height : Nat)
      (chanAt : Nat → Nat → Nat × Nat × Nat)

def RFBImage.minX : RFBImage → Int
  | .rgba mx _ _ _ _ => mx
  | .generic mx _ _ _ _ => mx

def RFBImage.minY : RFBImage → Int
  | .rgba _ my _ _ _ => my
  | .generic _ my _ _ _ => my

def RFBImage.width : RFBImage → Nat
  | .rgba _ _ w _ _ => w
  | .generic _ _ w _ _ => w

def RFBImage.height : RFBImage → Nat
  | .rgba _ _ _ h _ => h
  | .generic _ _ _ h _ => h

/-- Well-formedness of a frame: an RGBA buffer holds exactly four bytes
per pixel of its bounds (stride 4*width, bounds-sized Pix array), as
image.NewRGBA guarantees for the frames this server builds. -/
def RFBImage.wf : RFBImage → Prop
  | .rgba _ _ w h pix => pix.length = 4 * (w * h)
  | .generic _ _ _ _ _ => True

/-! ### FramebufferUpdate messages -/

/-- Header of a FramebufferUpdate message: message type 0, one padding
byte, 16-bit big-endian rectangle count. -/
def updateMsgHeader (numRects : Nat) : List Nat :=
  [cmdFramebufferUpdate, 0] ++ be16 numRects

/-- The 12-byte rectangle header: x, y, width, height as big-endian
uint16, then the signed 32-bit encoding type. -/
def rectHeader (x y w h : Nat) (encodingType : Nat) : List Nat :=
  be16 x ++ be16 y ++ be16 w ++ be16 h ++ be32 encodingType

/-- pushImage: one full-frame raw FramebufferUpdate.  Panics if the image
bounds do not start at the origin or if the format is not true-colour;
otherwise one full-screen rectangle in raw encoding, produced by the fast
path when the image is a direct RGBA buffer and the format is the Screens
Thousands format, by the generic path otherwise. -/
def pushImage (f : PixelFormat) (img : RFBImage) : Except String (List Nat) :=
  if img.minX ≠ 0 ∨ img.minY ≠ 0 then
    .error "this code is lazy and assumes images with Min bounds at 0,0"
  else if f.TrueColour = 0 then
    .error "only true-colour supported"
  else do
    let payload ←
      match img with
      | .rgba _ _ w _ pix =>
        if f.isScreensThousands then .ok (fastPathPixels (f.BigEndian ≠ 0) pix)
        else pushGenericLocked f (rgbaAt pix w) img.width img.height
      | .generic _ _ _ _ chanAt => pushGenericLocked f chanAt img.width img.height
    .ok (updateMsgHeader 1 ++ rectHeader 0 0 img.width img.height encodingRaw ++ payload)

/-- The zero-change acknowledgment pushFrame sends for an incremental
request: a single full-frame rectangle in copyRect encoding with source
position (0,0). -/
def copyRectAck (w h : Nat) : List Nat :=
  updateMsgHeader 1 ++ rectHeader 0 0 w h encodingCopyRect ++ be16 0 ++ be16 0

/-- 6.4.3 FramebufferUpdateRequest payload. -/
structure FrameBufferUpdateRequest where
  IncrementalFlag : Nat
  X : Nat
  Y : Nat
  Width : Nat
  Height : Nat

def FrameBufferUpdateRequest.incremental (r : FrameBufferUpdateRequest) : Bool :=
  r.IncrementalFlag != 0

/-- The per-connection state pushFrame consults: the active pixel format
and the current frame reference (last). -/
structure ConnState where
  format : PixelFormat
  last : Option RFBImage

/-- 6.4.1 SetPixelFormat: atomically replace the active format. -/
def handleSetPixelFormat (s : ConnState) (pf : PixelFormat) : ConnState :=
  { s with format := pf }

/-- pushFrame: serve one update request.  No current frame: send nothing.
Incremental request: send the copy-rect self-copy acknowledgment sized to
the current frame.  Non-incremental: send a full frame via pushImage.
The request region fields are never consulted. -/
def pushFrame (s : ConnState) (ur : FrameBufferUpdateRequest) : Except String (List Nat) :=
  match s.last with
  | none => .ok []
  | some li =>
    if ur.incremental then .ok (copyRectAck li.width li.height)
    else pushImage s.format li

/-! ### Handshake -/

/-- Lexicographic byte-wise comparison, as Go compares strings.  The
version strings are ASCII, where Char code points and bytes agree. -/
def goStrLt : List Char → List Char → Bool
  | [], [] => false
  | [], _ :: _ => true
  | _ :: _, [] => false
  | a :: as, b :: bs =>
    if a.toNat < b.toNat then true
    else if b.toNat < a.toNat then false
    else goStrLt as bs

/-- Go string comparison a >= b. -/
def goStrGE (a b : String) : Bool := !(goStrLt a.data b.data)

/-- ServerInit: screen width and height, the ten fields of the default
pixel format, three padding bytes, then the server name as a 4-byte
big-endian signed length prefix followed by its bytes. -/
def serverInitBytes : List Nat :=
  be16 deskWidth ++ be16 deskHeight ++
  [defaultFormat.BPP, defaultFormat.Depth, defaultFormat.BigEndian, defaultFormat.TrueColour] ++
  be16 defaultFormat.RedMax ++ be16 defaultFormat.GreenMax ++ be16 defaultFormat.BlueMax ++
  [defaultFormat.RedShift, defaultFormat.GreenShift, defaultFormat.BlueShift] ++
  [0, 0, 0] ++
  be32 (strBytes "rfb-go").length ++ strBytes "rfb-go"

/-- The serve handshake after the server has advertised RFB 003.008 and
read the client version line.  Arguments: the client version line, the
security-type byte the client would send, and the ClientInit shared flag
byte (read but ignored).  Result: the bytes the server sends after the
version advertisement, whether the security-type choice byte was read
from the client, and the panic message if the connection failed. -/
def serveHandshake (ver : String) (secChoice : Nat) (_shared : Nat) :
    List Nat × Bool × Option String :=
  if ver = v3 ∨ ver = v7 ∨ ver = v8 then
    if goStrGE ver v7 then
      -- the 2-byte security-type list: count 1, type 1 (no auth);
      -- flushed before the choice byte is read back
      if secChoice ≠ authNone then
        ([1, 1], true, some ("client wanted auth type " ++ toString secChoice ++ ", not None"))
      else if goStrGE ver v8 then
        -- 6.1.3 SecurityResult, then ClientInit and ServerInit
        ([1, 1] ++ be32 statusOK ++ serverInitBytes, true, none)
      else
        ([1, 1] ++ serverInitBytes, true, none)
    else
      -- old way: a unilateral 4-byte no-auth code, no list, no read-back
      (be32 authNone ++ serverInitBytes, false, none)
  else
    ([], false, some ("bogus client-requested security type " ++ ver))

/-! ### Spec-side definitions used to state the claims -/

/-- The per-pixel wire bytes as the specification words them: each 16-bit
channel reduced to the 5-bit width its maximum of 31 defines, left-shifted
by its shift amount, ored into one value packed into the bit width of the
format, written little-endian when the BigEndian flag is zero and
big-endian otherwise. -/
def specPixelBytes (f : PixelFormat) (r16 g16 b16 : Nat) : List Nat :=
  let rr := r16 >>> 11
  let gg := g16 >>> 11
  let bb := b16 >>> 11
  let packed := ((rr <<< f.RedShift) ||| (gg <<< f.GreenShift) ||| (bb <<< f.BlueShift)) % 2 ^ f.BPP
  if f.BigEndian = 0 then
    (List.range (f.BPP / 8)).map (fun i => packed / 256 ^ i % 256)
  else
    (List.range (f.BPP / 8)).map (fun i => packed / 256 ^ (f.BPP / 8 - 1 - i) % 256)

/-- The Screens Thousands format with the little-endian flag given by the
argument (used for concrete counterexample states). -/
def thousandsFormat (bigEndian : Nat) : PixelFormat :=
  { BPP := 16, Depth := 16, BigEndian := bigEndian, TrueColour := 1,
    RedMax := 31, GreenMax := 31, BlueMax := 31,
    RedShift := 10, GreenShift := 5, BlueShift := 0 }

/-- A full-screen black frame (a non-RGBA image representation). -/
def blackFrame : RFBImage :=
  .generic 0 0 deskWidth deskHeight (fun _ _ => (0, 0, 0))

/-- A connection state directly after the handshake installed the Screens
Thousands format, before any frame was ever sent to the client (the code
keeps no record of sent frames, so the state carries none). -/
def freshThousandsState : ConnState :=
  { format := thousandsFormat 0, last := some blackFrame }

/-! ## Theorems -/

/-! ### Helper lemmas -/

theorem coords_succ (w h : Nat) :
    coords w (h + 1) = coords w h ++ (List.range w).map (fun x => (x, h)) := by
  simp [coords, List.range_succ]

theorem coords_length (w h : Nat) : (coords w h).length = h * w := by
  induction h with
  | zero => simp [coords]
  | succ n ih =>
    rw [coords_succ, List.length_append, ih, List.length_map, List.length_range]
    ring

/-- The fast path emits two bytes for every complete four-byte pixel group
of the Pix array. -/
theorem fastPathPixels_length (be : Bool) (pix : List Nat) :
    (fastPathPixels be pix).length = 2 * (pix.length / 4) := by
  induction pix using fastPathPixels.induct be with
  | case1 r g b a rest ih =>
    cases be <;> simp [fastPathPixels, fastChunk, ih] <;> omega
  | case2 t h =>
    rcases t with _ | ⟨p, _ | ⟨q, _ | ⟨r, _ | ⟨s, rest⟩⟩⟩⟩
    · cases be <;> simp [fastPathPixels]
    · cases be <;> simp [fastPathPixels]
    · cases be <;> simp [fastPathPixels]
    · cases be <;> simp [fastPathPixels]
    · exact ((h p q r s rest rfl).elim)

/-- Under a format the encoder supports (all maxima 31 and a byte-aligned
bit width) each pixel encodes successfully to BPP/8 bytes. -/
theorem encodePixel_ok_length (f : PixelFormat)
    (h1 : f.RedMax = 31) (h2 : f.GreenMax = 31) (h3 : f.BlueMax = 31)
    (hbpp : f.BPP = 8 ∨ f.BPP = 16 ∨ f.BPP = 32) (r g b : Nat) :
    ∃ l, encodePixel f r g b = .ok l ∧ l.length = f.BPP / 8 := by
  unfold encodePixel inRange packedBytes
  rw [h1, h2, h3]
  rcases hbpp with h | h | h <;> rw [h] <;>
    exact ⟨_, rfl, by first | (split <;> rfl) | rfl⟩

/-- Under a supported format a coordinate list encodes successfully, at
BPP/8 bytes per coordinate. -/
theorem encodeCoords_ok_length (f : PixelFormat)
    (chanAt : Nat → Nat → Nat × Nat × Nat)
    (h1 : f.RedMax = 31) (h2 : f.GreenMax = 31) (h3 : f.BlueMax = 31)
    (hbpp : f.BPP = 8 ∨ f.BPP = 16 ∨ f.BPP = 32) (l : List (Nat × Nat)) :
    ∃ out, encodeCoords f chanAt l = .ok out ∧ out.length = l.length * (f.BPP / 8) := by
  induction l with
  | nil => exact ⟨[], rfl, by simp⟩
  | cons p rest ih =>
    obtain ⟨out, hout, hlen⟩ := ih
    obtain ⟨px, hpx, hpxlen⟩ := encodePixel_ok_length f h1 h2 h3 hbpp
      (chanAt p.1 p.2).1 (chanAt p.1 p.2).2.1 (chanAt p.1 p.2).2.2
    refine ⟨px ++ out, ?_, ?_⟩
    · cases p
      simp only [encodeCoords]
      rw [hpx, hout]
      rfl
    · simp only [List.length_append, List.length_cons, hlen, hpxlen]
      ring

/-- Under a supported true-colour format with origin bounds, pushImage
succeeds with the full-frame header and a payload of exactly
width * height * BPP/8 bytes. -/
theorem pushImage_ok_length (f : PixelFormat) (img : RFBImage)
    (h1 : f.RedMax = 31) (h2 : f.GreenMax = 31) (h3 : f.BlueMax = 31)
    (hbpp : f.BPP = 8 ∨ f.BPP = 16 ∨ f.BPP = 32)
    (htc : f.TrueColour ≠ 0) (hx : img.minX = 0) (hy : img.minY = 0)
    (hwf : img.wf) :
    ∃ payload,
      pushImage f img =
        .ok (updateMsgHeader 1 ++ rectHeader 0 0 img.width img.height encodingRaw ++ payload) ∧
      payload.length = img.width * img.height * (f.BPP / 8) := by
  cases img with
  | rgba mx my w h pix =>
    unfold pushImage
    rw [if_neg (by simp [hx, hy]), if_neg htc]
    dsimp only
    by_cases hth : f.isScreensThousands
    · have hb16 : f.BPP = 16 := by
        simp only [PixelFormat.isScreensThousands, Bool.and_eq_true, beq_iff_eq] at hth
        exact hth.1.1.1.1.1.1.1.1
      have hpl : pix.length = 4 * (w * h) := hwf
      refine ⟨fastPathPixels (f.BigEndian ≠ 0) pix, ?_, ?_⟩
      · rw [if_pos hth]
        rfl
      · rw [fastPathPixels_length, hpl, Nat.mul_div_cancel_left _ (by norm_num : 0 < 4),
          hb16]
        simp only [RFBImage.width, RFBImage.height]
        norm_num
        ring
    · obtain ⟨out, hout, hlen⟩ := encodeCoords_ok_length f (rgbaAt pix w) h1 h2 h3 hbpp
        (coords (RFBImage.width (.rgba mx my w h pix)) (RFBImage.height (.rgba mx my w h pix)))
      refine ⟨out, ?_, ?_⟩
      · rw [if_neg hth]
        unfold pushGenericLocked
        rw [hout]
        rfl
      · rw [hlen, coords_length]
        simp only [RFBImage.width, RFBImage.height]
        ring
  | generic mx my w h chanAt =>
    obtain ⟨out, hout, hlen⟩ := encodeCoords_ok_length f chanAt h1 h2 h3 hbpp
      (coords (RFBImage.width (.generic mx my w h chanAt))
        (RFBImage.height (.generic mx my w h chanAt)))
    unfold pushImage
    rw [if_neg (by simp [hx, hy]), if_neg htc]
    dsimp only
    refine ⟨out, ?_, ?_⟩
    · unfold pushGenericLocked
      rw [hout]
      rfl
    · rw [hlen, coords_length]
      simp only [RFBImage.width, RFBImage.height]
      ring

/-- A bit width other than 8, 16 or 32 hits the TODO panic of the BPP
switch. -/
theorem packedBytes_error (f : PixelFormat) (u : Nat)
    (n8 : f.BPP ≠ 8) (n16 : f.BPP ≠ 16) (n32 : f.BPP ≠ 32) :
    packedBytes f u = .error ("TODO: BPP of " ++ toString f.BPP) := by
  unfold packedBytes
  split <;> simp_all

/-- A pixel the format cannot encode fails: some channel maximum is not
31, or the bit width is not byte-aligned at 8, 16 or 32. -/
theorem encodePixel_error (f : PixelFormat) (r g b : Nat)
    (hbad : ¬(f.RedMax = 31 ∧ f.GreenMax = 31 ∧ f.BlueMax = 31) ∨
      ¬(f.BPP = 8 ∨ f.BPP = 16 ∨ f.BPP = 32)) :
    ∃ e, encodePixel f r g b = .error e := by
  unfold encodePixel inRange
  by_cases hr : f.RedMax = 31
  · rw [if_pos hr]
    by_cases hg : f.GreenMax = 31
    · rw [if_pos hg]
      by_cases hb : f.BlueMax = 31
      · rw [if_pos hb]
        have hbpp : ¬(f.BPP = 8 ∨ f.BPP = 16 ∨ f.BPP = 32) := by
          rcases hbad with hm | hm
          · exact absurd ⟨hr, hg, hb⟩ hm
          · exact hm
        push_neg at hbpp
        obtain ⟨n8, n16, n32⟩ := hbpp
        exact ⟨_, packedBytes_error f
          ((((r >>> (16 - 5)) <<< f.RedShift) % 4294967296) |||
           (((g >>> (16 - 5)) <<< f.GreenShift) % 4294967296) |||
           (((b >>> (16 - 5)) <<< f.BlueShift) % 4294967296)) n8 n16 n32⟩
      · rw [if_neg hb]
        exact ⟨_, rfl⟩
    · rw [if_neg hg]
      exact ⟨_, rfl⟩
  · rw [if_neg hr]
    exact ⟨_, rfl⟩

/-- An encode failure on the first coordinate fails the whole walk. -/
theorem encodeCoords_error_cons (f : PixelFormat)
    (chanAt : Nat → Nat → Nat × Nat × Nat) (p : Nat × Nat) (rest : List (Nat × Nat))
    (he : ∃ e, encodePixel f (chanAt p.1 p.2).1 (chanAt p.1 p.2).2.1
      (chanAt p.1 p.2).2.2 = .error e) :
    ∃ e, encodeCoords f chanAt (p :: rest) = .error e := by
  obtain ⟨e, he⟩ := he
  cases p
  refine ⟨e, ?_⟩
  simp only [encodeCoords]
  rw [he]
  rfl

theorem coords_ne_nil (w h : Nat) (hw : 0 < w) (hh : 0 < h) :
    ∃ p rest, coords w h = p :: rest := by
  cases hc : coords w h with
  | nil =>
    exfalso
    have hlen := coords_length w h
    rw [hc] at hlen
    simp only [List.length_nil] at hlen
    rcases Nat.mul_eq_zero.mp hlen.symm with h0 | h0 <;> omega
  | cons p rest => exact ⟨p, rest, rfl⟩

/-- A format failing the supported-format condition is never the Screens
Thousands format, so it never reaches the fast path. -/
theorem not_thousands_of_bad_format (f : PixelFormat)
    (hbad : ¬(f.RedMax = 31 ∧ f.GreenMax = 31 ∧ f.BlueMax = 31) ∨
      ¬(f.BPP = 8 ∨ f.BPP = 16 ∨ f.BPP = 32)) :
    f.isScreensThousands = false := by
  cases hq : f.isScreensThousands
  · rfl
  · exfalso
    simp only [PixelFormat.isScreensThousands, Bool.and_eq_true, beq_iff_eq,
      bne_iff_ne] at hq
    obtain ⟨⟨⟨⟨⟨⟨⟨⟨hb16, _⟩, _⟩, hr⟩, hg⟩, hb⟩, _⟩, _⟩, _⟩ := hq
    rcases hbad with hm | hm
    · exact hm ⟨hr, hg, hb⟩
    · exact hm (Or.inr (Or.inl hb16))

/-- C4: for each of the three accepted client version strings the
handshake performs exactly the prescribed exchanges.  Version 3.3: the
server unilaterally sends the 4-byte no-authentication code, with no
security-type list and without reading a choice byte.  Versions 3.7 and
3.8: the server sends the 1-element security-type list containing only
type 1 and reads back the choice, failing the connection on any value
other than 1; only version 3.8 additionally gets the 4-byte OK
security-result status before ServerInit. -/
theorem c4_version_specific_security_exchanges (choice sh : Nat) :
    serveHandshake v3 choice sh = (be32 authNone ++ serverInitBytes, false, none) ∧
    serveHandshake v7 choice sh =
      (if choice = authNone then ([1, 1] ++ serverInitBytes, true, none)
       else ([1, 1], true,
         some ("client wanted auth type " ++ toString choice ++ ", not None"))) ∧
    serveHandshake v8 choice sh =
      (if choice = authNone then ([1, 1] ++ be32 statusOK ++ serverInitBytes, true, none)
       else ([1, 1], true,
         some ("client wanted auth type " ++ toString choice ++ ", not None"))) := by
  have m3 : v3 = v3 ∨ v3 = v7 ∨ v3 = v8 := Or.inl rfl
  have m7 : v7 = v3 ∨ v7 = v7 ∨ v7 = v8 := Or.inr (Or.inl rfl)
  have m8 : v8 = v3 ∨ v8 = v7 ∨ v8 = v8 := Or.inr (Or.inr rfl)
  have g37 : goStrGE v3 v7 = false := by decide
  have g77 : goStrGE v7 v7 = true := by decide
  have g78 : goStrGE v7 v8 = false := by decide
  have g87 : goStrGE v8 v7 = true := by decide
  have g88 : goStrGE v8 v8 = true := by decide
  refine ⟨?_, ?_, ?_⟩
  · unfold serveHandshake
    rw [if_pos m3, if_neg (by simp [g37])]
  · unfold serveHandshake
    rw [if_pos m7, if_pos g77]
    by_cases hc : choice = authNone
    · rw [if_neg (by simp [hc]), if_neg (by simp [g78]), if_pos hc]
    · rw [if_pos hc, if_neg hc]
  · unfold serveHandshake
    rw [if_pos m8, if_pos g87]
    by_cases hc : choice = authNone
    · rw [if_neg (by simp [hc]), if_pos g88, if_pos hc]
    · rw [if_pos hc, if_neg hc]

/-- C5: a client version line outside the three recognized values makes
the connection fail at once: no bytes at all are sent after the version
advertisement (in particular no security negotiation bytes and no
ServerInit bytes), no security choice is read, and the handshake ends
with a connection-scoped failure. -/
theorem c5_bad_version_fails_before_any_output (ver : String) (choice sh : Nat)
    (h3 : ver ≠ v3) (h7 : ver ≠ v7) (h8 : ver ≠ v8) :
    (serveHandshake ver choice sh).1 = [] ∧
    (serveHandshake ver choice sh).2.1 = false ∧
    ∃ e, (serveHandshake ver choice sh).2.2 = some e := by
  have hno : ¬(ver = v3 ∨ ver = v7 ∨ ver = v8) := by
    rintro (h | h | h)
    · exact h3 h
    · exact h7 h
    · exact h8 h
  unfold serveHandshake
  rw [if_neg hno]
  exact ⟨rfl, rfl, _, rfl⟩

/-- C5 witness: the concrete rejected version line RFB 003.006. -/
theorem c5_bad_version_fails_before_any_output_witness :
    ("RFB 003.006\n" ≠ v3 ∧ "RFB 003.006\n" ≠ v7 ∧ "RFB 003.006\n" ≠ v8) ∧
    ((serveHandshake "RFB 003.006\n" 1 0).1 = [] ∧
     (serveHandshake "RFB 003.006\n" 1 0).2.1 = false ∧
     ∃ e, (serveHandshake "RFB 003.006\n" 1 0).2.2 = some e) :=
  ⟨⟨by decide, by decide, by decide⟩,
   c5_bad_version_fails_before_any_output "RFB 003.006\n" 1 0
     (by decide) (by decide) (by decide)⟩

/-- C6: after a successful handshake under any of the three versions, the
ServerInit bytes are, in order: the 16-bit screen width and height, the
default pixel format (24 bpp, depth 24, big-endian flag 1, true-colour
flag 1, channel maxima 255/255/255 as 16-bit values, shifts 16/8/0),
three zero padding bytes, and the server name with a 4-byte big-endian
signed length prefix followed by its raw bytes. -/
theorem c6_serverinit_layout :
    serverInitBytes =
      be16 deskWidth ++ be16 deskHeight ++
      [24, 24, 1, 1] ++ be16 255 ++ be16 255 ++ be16 255 ++ [16, 8, 0] ++
      [0, 0, 0] ++ be32 6 ++ strBytes "rfb-go" ∧
    (serveHandshake v3 1 0).1 = be32 authNone ++ serverInitBytes ∧
    (serveHandshake v3 1 0).2.2 = none ∧
    (serveHandshake v7 1 0).1 = [1, 1] ++ serverInitBytes ∧
    (serveHandshake v7 1 0).2.2 = none ∧
    (serveHandshake v8 1 0).1 = [1, 1] ++ be32 statusOK ++ serverInitBytes ∧
    (serveHandshake v8 1 0).2.2 = none := by
  decide

/-- C9: a source image whose bounds do not start at the origin makes the
full-frame encoder fail explicitly (the Go code panics, ending the
connection) instead of emitting a mis-encoded payload. -/
theorem c9_nonzero_min_bounds_fail (f : PixelFormat) (img : RFBImage)
    (h : img.minX ≠ 0 ∨ img.minY ≠ 0) :
    pushImage f img = .error "this code is lazy and assumes images with Min bounds at 0,0" := by
  unfold pushImage
  rw [if_pos h]

/-- C9 witness: a 1x1 image with Min bounds (1,0). -/
theorem c9_nonzero_min_bounds_fail_witness :
    ((RFBImage.rgba 1 0 1 1 [0, 0, 0, 0]).minX ≠ 0 ∨
     (RFBImage.rgba 1 0 1 1 [0, 0, 0, 0]).minY ≠ 0) ∧
    pushImage defaultFormat (RFBImage.rgba 1 0 1 1 [0, 0, 0, 0]) =
      .error "this code is lazy and assumes images with Min bounds at 0,0" :=
  ⟨Or.inl (by decide),
   c9_nonzero_min_bounds_fail defaultFormat _ (Or.inl (by decide))⟩

/-- C10: under a pixel format whose true-colour flag is zero a full-frame
update always fails the connection; since the failure unwinds before the
buffered writer is flushed, no raw pixel payload for such a format ever
reaches the client. -/
theorem c10_non_truecolour_never_emits_pixels (f : PixelFormat) (img : RFBImage)
    (h : f.TrueColour = 0) :
    ∃ e, pushImage f img = .error e := by
  unfold pushImage
  by_cases hm : img.minX ≠ 0 ∨ img.minY ≠ 0
  · exact ⟨_, by rw [if_pos hm]⟩
  · exact ⟨_, by rw [if_neg hm, if_pos h]⟩

/-- C10 witness: the default format with the true-colour flag cleared. -/
theorem c10_non_truecolour_never_emits_pixels_witness :
    ({ defaultFormat with TrueColour := 0 } : PixelFormat).TrueColour = 0 ∧
    ∃ e, pushImage { defaultFormat with TrueColour := 0 }
      (RFBImage.rgba 0 0 1 1 [0, 0, 0, 0]) = .error e :=
  ⟨rfl, c10_non_truecolour_never_emits_pixels _ _ rfl⟩

/-- C3: a SetPixelFormat installing a supported format, followed by a
non-incremental FramebufferUpdateRequest with arbitrary region fields,
produces one FramebufferUpdate message with exactly one rectangle whose
dimensions are the advertised screen size and whose raw payload is
exactly width * height * BPP/8 bytes of the just-set format. -/
theorem c3_setformat_then_full_update (s : ConnState) (pf : PixelFormat)
    (img : RFBImage) (req : FrameBufferUpdateRequest)
    (hlast : s.last = some img)
    (hinc : req.IncrementalFlag = 0)
    (h1 : pf.RedMax = 31) (h2 : pf.GreenMax = 31) (h3 : pf.BlueMax = 31)
    (hbpp : pf.BPP = 8 ∨ pf.BPP = 16 ∨ pf.BPP = 32)
    (htc : pf.TrueColour ≠ 0)
    (hx : img.minX = 0) (hy : img.minY = 0)
    (hw : img.width = deskWidth) (hh : img.height = deskHeight)
    (hwf : img.wf) :
    ∃ payload,
      pushFrame (handleSetPixelFormat s pf) req =
        .ok (updateMsgHeader 1 ++
          rectHeader 0 0 deskWidth deskHeight encodingRaw ++ payload) ∧
      payload.length = deskWidth * deskHeight * (pf.BPP / 8) := by
  obtain ⟨payload, hp, hl⟩ := pushImage_ok_length pf img h1 h2 h3 hbpp htc hx hy hwf
  rw [hw, hh] at hp hl
  refine ⟨payload, ?_, hl⟩
  unfold pushFrame handleSetPixelFormat
  dsimp only
  rw [hlast]
  dsimp only
  rw [if_neg (by simp [FrameBufferUpdateRequest.incremental, hinc])]
  exact hp

/-- C3 witness: a 1280x720 single-colour frame under the Screens
Thousands format. -/
theorem c3_setformat_then_full_update_witness :
    ((some blackFrame : Option RFBImage) = some blackFrame ∧
      (0 : Nat) = 0 ∧
      (thousandsFormat 0).RedMax = 31 ∧ (thousandsFormat 0).GreenMax = 31 ∧
      (thousandsFormat 0).BlueMax = 31 ∧
      ((thousandsFormat 0).BPP = 8 ∨ (thousandsFormat 0).BPP = 16 ∨
        (thousandsFormat 0).BPP = 32) ∧
      (thousandsFormat 0).TrueColour ≠ 0 ∧
      blackFrame.minX = 0 ∧ blackFrame.minY = 0 ∧
      blackFrame.width = deskWidth ∧ blackFrame.height = deskHeight ∧
      blackFrame.wf) ∧
    ∃ payload,
      pushFrame
          (handleSetPixelFormat { format := defaultFormat, last := some blackFrame }
            (thousandsFormat 0))
          ⟨0, 3, 4, 5, 6⟩ =
        .ok (updateMsgHeader 1 ++
          rectHeader 0 0 deskWidth deskHeight encodingRaw ++ payload) ∧
      payload.length = deskWidth * deskHeight * ((thousandsFormat 0).BPP / 8) :=
  ⟨⟨rfl, rfl, rfl, rfl, rfl, Or.inr (Or.inl rfl), by decide, rfl, rfl, rfl, rfl,
     trivial⟩,
   c3_setformat_then_full_update
     { format := defaultFormat, last := some blackFrame } (thousandsFormat 0)
     blackFrame ⟨0, 3, 4, 5, 6⟩ rfl rfl rfl rfl rfl (Or.inr (Or.inl rfl))
     (by decide) rfl rfl rfl rfl trivial⟩

/-- C8: a pixel format whose channel maxima are not all 31, or whose bit
width is not 8, 16 or 32, fails a full-frame encode of any nonempty frame
with a diagnosable error; since the failure unwinds before the flush, no
pixel payload computed under such a format is ever emitted. -/
theorem c8_unsupported_format_fails (f : PixelFormat) (img : RFBImage)
    (hbad : ¬(f.RedMax = 31 ∧ f.GreenMax = 31 ∧ f.BlueMax = 31) ∨
      ¬(f.BPP = 8 ∨ f.BPP = 16 ∨ f.BPP = 32))
    (hw : 0 < img.width) (hh : 0 < img.height) :
    ∃ e, pushImage f img = .error e := by
  by_cases hm : img.minX ≠ 0 ∨ img.minY ≠ 0
  · exact ⟨_, by unfold pushImage; rw [if_pos hm]⟩
  by_cases htc : f.TrueColour = 0
  · exact ⟨_, by unfold pushImage; rw [if_neg hm, if_pos htc]⟩
  have hth := not_thousands_of_bad_format f hbad
  cases img with
  | rgba mx my w h pix =>
    obtain ⟨p, rest, hco⟩ := coords_ne_nil (RFBImage.width (.rgba mx my w h pix))
      (RFBImage.height (.rgba mx my w h pix)) hw hh
    obtain ⟨e, he⟩ := encodeCoords_error_cons f (rgbaAt pix w) p rest
      (encodePixel_error f _ _ _ hbad)
    refine ⟨e, ?_⟩
    unfold pushImage
    rw [if_neg hm, if_neg htc]
    dsimp only
    rw [if_neg (by simp [hth])]
    unfold pushGenericLocked
    rw [hco, he]
    rfl
  | generic mx my w h chanAt =>
    obtain ⟨p, rest, hco⟩ := coords_ne_nil (RFBImage.width (.generic mx my w h chanAt))
      (RFBImage.height (.generic mx my w h chanAt)) hw hh
    obtain ⟨e, he⟩ := encodeCoords_error_cons f chanAt p rest
      (encodePixel_error f _ _ _ hbad)
    refine ⟨e, ?_⟩
    unfold pushImage
    rw [if_neg hm, if_neg htc]
    dsimp only
    unfold pushGenericLocked
    rw [hco, he]
    rfl

/-- C8 witness: the default format (channel maxima 255 and BPP 24) on a
1x1 frame. -/
theorem c8_unsupported_format_fails_witness :
    ((¬(defaultFormat.RedMax = 31 ∧ defaultFormat.GreenMax = 31 ∧
        defaultFormat.BlueMax = 31) ∨
      ¬(defaultFormat.BPP = 8 ∨ defaultFormat.BPP = 16 ∨ defaultFormat.BPP = 32)) ∧
     0 < (RFBImage.rgba 0 0 1 1 [9, 9, 9, 0]).width ∧
     0 < (RFBImage.rgba 0 0 1 1 [9, 9, 9, 0]).height) ∧
    ∃ e, pushImage defaultFormat (RFBImage.rgba 0 0 1 1 [9, 9, 9, 0]) = .error e :=
  ⟨⟨by decide, by decide, by decide⟩,
   c8_unsupported_format_fails defaultFormat _ (by decide) (by decide) (by decide)⟩

/-- C1 counterexample: in a connection state in which no frame has ever
been sent (the freshly handshaken state), an incremental request produces
the 20-byte copy-rect acknowledgment while a non-incremental request
produces a full 1280x720 frame, so the wire bytes differ. -/
theorem c1_counterexample_incremental_differs :
    pushFrame freshThousandsState ⟨1, 0, 0, 0, 0⟩ ≠
      pushFrame freshThousandsState ⟨0, 0, 0, 0, 0⟩ := by
  obtain ⟨payload, hp, hl⟩ := pushImage_ok_length (thousandsFormat 0) blackFrame
    rfl rfl rfl (Or.inr (Or.inl rfl)) (by decide) rfl rfl trivial
  have h1 : pushFrame freshThousandsState ⟨1, 0, 0, 0, 0⟩ =
      .ok (copyRectAck deskWidth deskHeight) := rfl
  have h0 : pushFrame freshThousandsState ⟨0, 0, 0, 0, 0⟩ =
      pushImage (thousandsFormat 0) blackFrame := rfl
  intro heq
  rw [h1, h0, hp] at heq
  have hlen := congrArg List.length (Except.ok.inj heq)
  simp only [List.length_append, hl] at hlen
  revert hlen
  decide

/-- C1 (amended): an incremental update request always yields the
copy-rect self-copy acknowledgment sized to the current frame — also in
states where no frame has ever been sent — and therefore does not produce
the bytes of a full-frame non-incremental update. -/
theorem c1_amended_incremental_always_acks (s : ConnState) (img : RFBImage)
    (ur : FrameBufferUpdateRequest)
    (hlast : s.last = some img) (hinc : ur.IncrementalFlag ≠ 0) :
    pushFrame s ur = .ok (copyRectAck img.width img.height) := by
  unfold pushFrame
  rw [hlast]
  dsimp only
  rw [if_pos (by simp [FrameBufferUpdateRequest.incremental, hinc])]

theorem lor_mod_two_pow (a b k : Nat) :
    (a ||| b) % 2 ^ k = a % 2 ^ k ||| b % 2 ^ k := by
  apply Nat.eq_of_testBit_eq
  intro i
  simp only [Nat.testBit_mod_two_pow, Nat.testBit_lor]
  by_cases h : i < k <;> simp [h]

theorem lor3_trunc32 (A B C : Nat) :
    A % 4294967296 ||| B % 4294967296 ||| C % 4294967296 =
      (A ||| B ||| C) % 4294967296 := by
  rw [show (4294967296 : Nat) = 2 ^ 32 by norm_num, lor_mod_two_pow, lor_mod_two_pow]

/-- Under a supported format, one pixel of the generic path produces
exactly the bytes the specification formula describes. -/
theorem encodePixel_spec (f : PixelFormat)
    (h1 : f.RedMax = 31) (h2 : f.GreenMax = 31) (h3 : f.BlueMax = 31)
    (hbpp : f.BPP = 8 ∨ f.BPP = 16 ∨ f.BPP = 32) (r g b : Nat) :
    encodePixel f r g b = .ok (specPixelBytes f r g b) := by
  have e1 : ∀ a : Nat, a % 65536 / 256 = a / 256 % 256 := fun a => by
    rw [show (65536 : Nat) = 256 * 256 by norm_num]
    exact Nat.mod_mul_right_div_self a 256 256
  have e2 : ∀ a : Nat, a % 16777216 / 65536 = a / 65536 % 256 := fun a => by
    rw [show (16777216 : Nat) = 65536 * 256 by norm_num]
    exact Nat.mod_mul_right_div_self a 65536 256
  have e3 : ∀ a : Nat, a % 4294967296 / 16777216 = a / 16777216 % 256 := fun a => by
    rw [show (4294967296 : Nat) = 16777216 * 256 by norm_num]
    exact Nat.mod_mul_right_div_self a 16777216 256
  have hax : encodePixel f r g b = packedBytes f
      ((((r >>> 11) <<< f.RedShift) % 4294967296) |||
       (((g >>> 11) <<< f.GreenShift) % 4294967296) |||
       (((b >>> 11) <<< f.BlueShift) % 4294967296)) := by
    unfold encodePixel inRange
    rw [h1, h2, h3]
    rfl
  rw [hax, lor3_trunc32]
  unfold packedBytes specPixelBytes
  rcases hbpp with hB | hB | hB <;> rw [hB] <;> dsimp only <;>
    by_cases hbe : f.BigEndian = 0
  · -- BPP 8, little-endian flag zero
    rw [if_pos hbe]
    simp [List.range_succ, Nat.mod_mod_of_dvd _ (by norm_num : (256:Nat) ∣ 4294967296)]
  · rw [if_neg hbe]
    simp [List.range_succ, Nat.mod_mod_of_dvd _ (by norm_num : (256:Nat) ∣ 4294967296)]
  · -- BPP 16
    rw [if_neg (by simp [hbe]), if_pos hbe]
    simp [le16, List.range_succ,
      Nat.mod_mod_of_dvd _ (by norm_num : (65536:Nat) ∣ 4294967296), e1]
  · rw [if_pos hbe, if_neg hbe]
    simp [be16, List.range_succ,
      Nat.mod_mod_of_dvd _ (by norm_num : (65536:Nat) ∣ 4294967296), e1]
  · -- BPP 32
    rw [if_neg (by simp [hbe]), if_pos hbe]
    simp [le32, List.range_succ, e1, e2, e3,
      Nat.mod_mod_of_dvd _ (by norm_num : (256:Nat) ∣ 4294967296)]
  · rw [if_pos hbe, if_neg hbe]
    simp [be32, List.range_succ, e1, e2, e3,
      Nat.mod_mod_of_dvd _ (by norm_num : (256:Nat) ∣ 4294967296)]

/-- Lifting a pointwise encode equation over a coordinate walk. -/
theorem encodeCoords_map_ok (f : PixelFormat)
    (chanAt : Nat → Nat → Nat × Nat × Nat) (G : Nat × Nat → List Nat)
    (l : List (Nat × Nat))
    (hpt : ∀ p ∈ l, encodePixel f (chanAt p.1 p.2).1 (chanAt p.1 p.2).2.1
      (chanAt p.1 p.2).2.2 = .ok (G p)) :
    encodeCoords f chanAt l = .ok (l.flatMap G) := by
  induction l with
  | nil => simp [encodeCoords]
  | cons p rest ih =>
    have hp := hpt p (List.mem_cons_self _ _)
    have hrest := ih (fun q hq => hpt q (List.mem_cons_of_mem _ hq))
    cases p
    simp only [encodeCoords]
    rw [hp, hrest]
    rfl

/-- C7: under a format the generic path supports (channel maxima 31 and a
byte-aligned bit width), the generic path produces, pixel by pixel in
row-major order, exactly the bytes of the specification formula: each
16-bit channel reduced to the 5-bit width its Max defines, left-shifted
by its Shift, ored into one value packed into the BPP-bit width, written
little-endian when the BigEndian flag is zero and big-endian otherwise. -/
theorem c7_generic_path_formula (f : PixelFormat)
    (chanAt : Nat → Nat → Nat × Nat × Nat) (w h : Nat)
    (h1 : f.RedMax = 31) (h2 : f.GreenMax = 31) (h3 : f.BlueMax = 31)
    (hbpp : f.BPP = 8 ∨ f.BPP = 16 ∨ f.BPP = 32) :
    pushGenericLocked f chanAt w h =
      .ok ((coords w h).flatMap (fun p =>
        specPixelBytes f (chanAt p.1 p.2).1 (chanAt p.1 p.2).2.1
          (chanAt p.1 p.2).2.2)) := by
  unfold pushGenericLocked
  exact encodeCoords_map_ok f chanAt _ (coords w h)
    (fun p _ => encodePixel_spec f h1 h2 h3 hbpp _ _ _)

/-- C7 witness: a one-pixel frame under a 32-bit little-endian format. -/
theorem c7_generic_path_formula_witness :
    (({ BPP := 32, Depth := 24, BigEndian := 0, TrueColour := 1,
        RedMax := 31, GreenMax := 31, BlueMax := 31,
        RedShift := 16, GreenShift := 8, BlueShift := 0 } : PixelFormat).RedMax = 31 ∧
     ({ BPP := 32, Depth := 24, BigEndian := 0, TrueColour := 1,
        RedMax := 31, GreenMax := 31, BlueMax := 31,
        RedShift := 16, GreenShift := 8, BlueShift := 0 } : PixelFormat).BPP = 32) ∧
    pushGenericLocked
        { BPP := 32, Depth := 24, BigEndian := 0, TrueColour := 1,
          RedMax := 31, GreenMax := 31, BlueMax := 31,
          RedShift := 16, GreenShift := 8, BlueShift := 0 }
        (fun _ _ => (65535, 0, 1024)) 1 1 =
      .ok ((coords 1 1).flatMap (fun p =>
        specPixelBytes
          { BPP := 32, Depth := 24, BigEndian := 0, TrueColour := 1,
            RedMax := 31, GreenMax := 31, BlueMax := 31,
            RedShift := 16, GreenShift := 8, BlueShift := 0 }
          ((fun (_ _ : Nat) => ((65535:Nat), (0:Nat), (1024:Nat))) p.1 p.2).1
          ((fun (_ _ : Nat) => ((65535:Nat), (0:Nat), (1024:Nat))) p.1 p.2).2.1
          ((fun (_ _ : Nat) => ((65535:Nat), (0:Nat), (1024:Nat))) p.1 p.2).2.2)) :=
  ⟨⟨rfl, rfl⟩,
   c7_generic_path_formula _ _ 1 1 rfl rfl rfl (Or.inr (Or.inr rfl))⟩

/-- Top five bits of an 8-bit red channel: the generic path computation
(expand to 16 bits, reduce to 5, shift to position 10) agrees with the
fast path masking (3 masked bits shifted by 7). -/
theorem red_top5 : ∀ r < 256, ((r * 257) >>> 11) <<< 10 = (r &&& 248) <<< 7 := by
  decide

theorem green_top5 : ∀ g < 256, ((g * 257) >>> 11) <<< 5 = (g &&& 248) <<< 2 := by
  decide

theorem blue_top5 : ∀ b < 256, (b * 257) >>> 11 = b >>> 3 := by
  decide

/-- With all channel maxima 31 the inRange reductions succeed and the
pixel loop body is the packedBytes of the ored shifted channels. -/
theorem encodePixel_reduce (f : PixelFormat)
    (h1 : f.RedMax = 31) (h2 : f.GreenMax = 31) (h3 : f.BlueMax = 31)
    (r g b : Nat) :
    encodePixel f r g b = packedBytes f
      ((((r >>> 11) <<< f.RedShift) % 4294967296) |||
       (((g >>> 11) <<< f.GreenShift) % 4294967296) |||
       (((b >>> 11) <<< f.BlueShift) % 4294967296)) := by
  unfold encodePixel inRange
  rw [h1, h2, h3]
  rfl

/-- Per-pixel agreement of the two encoder paths on the Screens Thousands
format: the generic path on the rounded 16-bit channels of an RGBA pixel
yields exactly the two bytes of the fast path chunk. -/
theorem encodePixel_thousands (f : PixelFormat)
    (hb16 : f.BPP = 16) (h1 : f.RedMax = 31) (h2 : f.GreenMax = 31)
    (h3 : f.BlueMax = 31) (hrs : f.RedShift = 10) (hgs : f.GreenShift = 5)
    (hbs : f.BlueShift = 0) (r g b : Nat)
    (hr : r < 256) (hg : g < 256) (hbl : b < 256) :
    encodePixel f (r * 257) (g * 257) (b * 257) =
      .ok (fastChunk (f.BigEndian ≠ 0) r g b) := by
  rw [encodePixel_reduce f h1 h2 h3, hrs, hgs, hbs, Nat.shiftLeft_zero,
    red_top5 r hr, green_top5 g hg, blue_top5 b hbl]
  have har : r &&& 248 ≤ 248 := Nat.and_le_right
  have hag : g &&& 248 ≤ 248 := Nat.and_le_right
  have bndr : (r &&& 248) <<< 7 < 65536 := by
    rw [Nat.shiftLeft_eq]
    norm_num
    omega
  have bndg : (g &&& 248) <<< 2 < 65536 := by
    rw [Nat.shiftLeft_eq]
    norm_num
    omega
  have bndb : b >>> 3 < 65536 := by
    rw [Nat.shiftRight_eq_div_pow]
    norm_num
    omega
  have bndu : ((r &&& 248) <<< 7 ||| (g &&& 248) <<< 2) ||| b >>> 3 < 65536 := by
    rw [show (65536 : Nat) = 2 ^ 16 by norm_num] at bndr bndg bndb ⊢
    exact Nat.or_lt_two_pow (Nat.or_lt_two_pow bndr bndg) bndb
  rw [Nat.mod_eq_of_lt (by omega : (r &&& 248) <<< 7 < 4294967296),
    Nat.mod_eq_of_lt (by omega : (g &&& 248) <<< 2 < 4294967296),
    Nat.mod_eq_of_lt (by omega : b >>> 3 < 4294967296)]
  unfold packedBytes
  rw [hb16]
  dsimp only
  by_cases hbe : f.BigEndian = 0
  · rw [if_neg (fun hk => hk hbe)]
    have hfc : fastChunk (f.BigEndian ≠ 0) r g b =
        [(((r &&& 248) <<< 7 ||| (g &&& 248) <<< 2) ||| b >>> 3) % 256,
         ((((r &&& 248) <<< 7 ||| (g &&& 248) <<< 2) ||| b >>> 3) >>> 8) % 256] := by
      simp [fastChunk, hbe]
    rw [hfc]
    apply congrArg Except.ok
    rw [Nat.shiftRight_eq_div_pow]
    simp only [le16, List.cons.injEq, and_true]
    norm_num
    omega
  · rw [if_pos hbe]
    have hfc : fastChunk (f.BigEndian ≠ 0) r g b =
        [((((r &&& 248) <<< 7 ||| (g &&& 248) <<< 2) ||| b >>> 3) >>> 8) % 256,
         (((r &&& 248) <<< 7 ||| (g &&& 248) <<< 2) ||| b >>> 3) % 256] := by
      simp [fastChunk, hbe]
    rw [hfc]
    apply congrArg Except.ok
    rw [Nat.shiftRight_eq_div_pow]
    simp only [be16, List.cons.injEq, and_true]
    norm_num
    omega

/-- The row-major coordinate walk visits exactly the flat pixel indices
0 .. h*w-1 in order. -/
theorem flatMap_coords_reindex (w h : Nat) (F : Nat → List Nat) :
    (coords w h).flatMap (fun p => F (p.2 * w + p.1)) =
      (List.range (h * w)).flatMap F := by
  induction h with
  | zero => simp [coords]
  | succ n ih =>
    rw [coords_succ, List.flatMap_append, ih, Nat.succ_mul, List.range_add,
      List.flatMap_append, List.flatMap_map, List.flatMap_map]

theorem getD_shift4 (r g b a : Nat) (rest : List Nat) (m : Nat) :
    (r :: g :: b :: a :: rest).getD (m + 4) 0 = rest.getD m 0 := by
  show (r :: g :: b :: a :: rest).getD (m + 1 + 1 + 1 + 1) 0 = rest.getD m 0
  simp [List.getD_cons_succ]

/-- Walking the flat pixel indices and packing each four-byte group with
the fast chunk is the fast path. -/
theorem range_chunks_eq_fastPath (be : Bool) :
    ∀ (n : Nat) (pix : List Nat), pix.length = 4 * n →
      (List.range n).flatMap (fun k =>
        fastChunk be (pix.getD (4 * k) 0) (pix.getD (4 * k + 1) 0)
          (pix.getD (4 * k + 2) 0)) = fastPathPixels be pix := by
  intro n
  induction n with
  | zero =>
    intro pix hlen
    have hn : pix = [] := List.length_eq_zero.mp (by omega)
    subst hn
    cases be <;> simp [fastPathPixels]
  | succ n ih =>
    intro pix hlen
    rcases pix with _ | ⟨r, _ | ⟨g, _ | ⟨b, _ | ⟨a, rest⟩⟩⟩⟩ <;>
      simp only [List.length_cons, List.length_nil] at hlen
    · omega
    · omega
    · omega
    · omega
    · have hrest : rest.length = 4 * n := by omega
      have htail : (fun k => fastChunk be
            ((r :: g :: b :: a :: rest).getD (4 * (k + 1)) 0)
            ((r :: g :: b :: a :: rest).getD (4 * (k + 1) + 1) 0)
            ((r :: g :: b :: a :: rest).getD (4 * (k + 1) + 2) 0)) =
          (fun k => fastChunk be (rest.getD (4 * k) 0) (rest.getD (4 * k + 1) 0)
            (rest.getD (4 * k + 2) 0)) := by
        funext k
        rw [show 4 * (k + 1) = 4 * k + 4 by ring,
          show 4 * k + 4 + 1 = (4 * k + 1) + 4 by ring,
          show 4 * k + 4 + 2 = (4 * k + 2) + 4 by ring,
          getD_shift4, getD_shift4, getD_shift4]
      rw [List.range_succ_eq_map, List.flatMap_cons, List.flatMap_map]
      simp only [Nat.succ_eq_add_one]
      rw [htail, ih rest hrest]
      show fastChunk be r g b ++ fastPathPixels be rest =
        fastPathPixels be (r :: g :: b :: a :: rest)
      simp [fastPathPixels]

/-- C2: for a direct RGBA buffer and any pixel format matching the fast
path trigger condition - in both endianness settings - the generic path
and the fast path produce byte-identical pixel payloads. -/
theorem c2_fast_and_generic_agree (f : PixelFormat) (w h : Nat)
    (pix : List Nat)
    (hf : f.isScreensThousands = true)
    (hlen : pix.length = 4 * (w * h))
    (hbytes : ∀ x ∈ pix, x < 256) :
    pushGenericLocked f (rgbaAt pix w) w h =
      .ok (fastPathPixels (f.BigEndian ≠ 0) pix) := by
  simp only [PixelFormat.isScreensThousands, Bool.and_eq_true, beq_iff_eq,
    bne_iff_ne] at hf
  obtain ⟨⟨⟨⟨⟨⟨⟨⟨hb16, hd⟩, htc⟩, hr31⟩, hg31⟩, hb31⟩, hrs⟩, hgs⟩, hbs⟩ := hf
  have hget : ∀ i, pix.getD i 0 < 256 := by
    intro i
    rcases Nat.lt_or_ge i pix.length with hlt | hge
    · rw [List.getD_eq_getElem pix 0 hlt]
      exact hbytes _ (List.getElem_mem hlt)
    · rw [List.getD_eq_default pix 0 hge]
      norm_num
  have hpt : ∀ p ∈ coords w h,
      encodePixel f (rgbaAt pix w p.1 p.2).1 (rgbaAt pix w p.1 p.2).2.1
        (rgbaAt pix w p.1 p.2).2.2 =
      .ok ((fun k => fastChunk (f.BigEndian ≠ 0) (pix.getD (4 * k) 0)
        (pix.getD (4 * k + 1) 0) (pix.getD (4 * k + 2) 0)) (p.2 * w + p.1)) := by
    intro p hp
    dsimp only [rgbaAt]
    exact encodePixel_thousands f hb16 hr31 hg31 hb31 hrs hgs hbs _ _ _
      (hget _) (hget _) (hget _)
  have henc := encodeCoords_map_ok f (rgbaAt pix w) _ (coords w h) hpt
  unfold pushGenericLocked
  rw [henc, flatMap_coords_reindex w h
      (fun k => fastChunk (f.BigEndian ≠ 0) (pix.getD (4 * k) 0)
        (pix.getD (4 * k + 1) 0) (pix.getD (4 * k + 2) 0)),
    range_chunks_eq_fastPath (f.BigEndian ≠ 0) (h * w) pix
      (by rw [Nat.mul_comm h w]; exact hlen)]

/-- C2 witness: a two-pixel frame under both endianness settings of the
Thousands format. -/
theorem c2_fast_and_generic_agree_witness :
    ((thousandsFormat 0).isScreensThousands = true ∧
     (thousandsFormat 1).isScreensThousands = true ∧
     ([255, 128, 7, 0, 1, 2, 3, 4] : List Nat).length = 4 * (2 * 1) ∧
     ∀ x ∈ ([255, 128, 7, 0, 1, 2, 3, 4] : List Nat), x < 256) ∧
    pushGenericLocked (thousandsFormat 0) (rgbaAt [255, 128, 7, 0, 1, 2, 3, 4] 2) 2 1 =
      .ok (fastPathPixels ((thousandsFormat 0).BigEndian ≠ 0) [255, 128, 7, 0, 1, 2, 3, 4]) ∧
    pushGenericLocked (thousandsFormat 1) (rgbaAt [255, 128, 7, 0, 1, 2, 3, 4] 2) 2 1 =
      .ok (fastPathPixels ((thousandsFormat 1).BigEndian ≠ 0) [255, 128, 7, 0, 1, 2, 3, 4]) :=
  ⟨⟨rfl, rfl, rfl, by decide⟩,
   c2_fast_and_generic_agree (thousandsFormat 0) 2 1 _ rfl rfl (by decide),
   c2_fast_and_generic_agree (thousandsFormat 1) 2 1 _ rfl rfl (by decide)⟩

/-- C1 witness: the fresh state and an incremental request. -/
theorem c1_amended_incremental_always_acks_witness :
    (freshThousandsState.last = some blackFrame ∧ (1 : Nat) ≠ 0) ∧
    pushFrame freshThousandsState ⟨1, 0, 0, 0, 0⟩ =
      .ok (copyRectAck blackFrame.width blackFrame.height) :=
  ⟨⟨rfl, by decide⟩,
   c1_amended_incremental_always_acks freshThousandsState blackFrame
     ⟨1, 0, 0, 0, 0⟩ rfl (by decide)⟩

end RFB
